import Mathlib

/-!
Verification of the entity-serialization core of the vircadia-web-sdk
repository against its natural-language specification.

The development shallowly embeds, in Lean:

* the byte-buffer model of a JavaScript `DataView` over an `ArrayBuffer`
  (a `List Nat` of bytes, with little- and big-endian multi-byte writes);
* `DataViewExtensions.ts` (`setBigUint128` / `getBigUint128`);
* the nineteen typed appenders of `OctreePacketData`
  (`src/domain/octree/OctreePacketData.ts`, shipped inside
  `ShapeEntityItem.ts` in the source snapshot);
* `RingGizmoPropertyGroup.readEntitySubclassDataFromBuffer`;
* the entity-edit encoder `EntityItemProperties.encodeEntityEditPacket`
  (modelled from the spec, the TypeScript file not being among the sources).

JavaScript numbers that the code routes into float32 fields are modelled by
`JSNum` (NaN, the two infinities, or a finite value as a rational); the
IEEE-754 bit patterns that `DataView.setFloat32` would produce are abstracted
to an arbitrary fixed 4-byte block, since no claim below depends on the bit
pattern of a float - only on byte counts, touched ranges, validity decisions
and packet-context updates.
-/

namespace VircadiaSdk

/-! ## Byte-buffer primitives -/

/-- Little-endian byte decomposition of a natural number into `n` bytes
(the value is taken modulo `256 ^ n`). -/
def leBytes : Nat → Nat → List Nat
  | 0, _ => []
  | n + 1, v => v % 256 :: leBytes n (v / 256)

/-- Big-endian byte decomposition: the little-endian bytes reversed. -/
def beBytes (n v : Nat) : List Nat :=
  (leBytes n v).reverse

/-- Value of a little-endian byte list. -/
def leBytesToNat (bs : List Nat) : Nat :=
  bs.foldr (fun b acc => b + 256 * acc) 0

/-- Writes the byte list `bs` into the buffer starting at `pos`
(`List.set` is a no-op beyond the end of the list, but every use below is
proved in-bounds). -/
def writeBytes : List Nat → Nat → List Nat → List Nat
  | data, _, [] => data
  | data, pos, b :: rest => writeBytes (data.set pos b) (pos + 1) rest

/-- Reads `n` bytes from the buffer starting at `off` (0 beyond the end). -/
def readBytes (data : List Nat) (off n : Nat) : List Nat :=
  (List.range n).map fun i => data.getD (off + i) 0

theorem leBytes_length (n v : Nat) : (leBytes n v).length = n := by
  induction n generalizing v with
  | zero => rfl
  | succ n ih => simp [leBytes, ih]

theorem beBytes_length (n v : Nat) : (beBytes n v).length = n := by
  simp [beBytes, leBytes_length]

theorem leBytes_mod (n v : Nat) : leBytes n (v % 256 ^ n) = leBytes n v := by
  induction n generalizing v with
  | zero => rfl
  | succ n ih =>
    show (v % 256 ^ (n + 1)) % 256 :: leBytes n (v % 256 ^ (n + 1) / 256)
        = v % 256 :: leBytes n (v / 256)
    have h256 : (256 : Nat) ^ (n + 1) = 256 * 256 ^ n := by ring
    rw [h256, Nat.mod_mul_right_mod, Nat.mod_mul_right_div_self, ih]

theorem leBytesToNat_leBytes (n v : Nat) :
    leBytesToNat (leBytes n v) = v % 256 ^ n := by
  induction n generalizing v with
  | zero => simp [leBytes, leBytesToNat, Nat.mod_one]
  | succ n ih =>
    have h256 : (256 : Nat) ^ (n + 1) = 256 * 256 ^ n := by ring
    simp only [leBytes, leBytesToNat, List.foldr_cons] at *
    rw [ih, h256, Nat.mod_mul]

theorem writeBytes_length (bs : List Nat) (data : List Nat) (pos : Nat) :
    (writeBytes data pos bs).length = data.length := by
  induction bs generalizing data pos with
  | nil => rfl
  | cons b rest ih => simp [writeBytes, ih]

theorem writeBytes_getD (bs : List Nat) (data : List Nat) (pos i : Nat)
    (h : pos + bs.length ≤ data.length) :
    (writeBytes data pos bs).getD i 0 =
      if pos ≤ i ∧ i < pos + bs.length then bs.getD (i - pos) 0
      else data.getD i 0 := by
  induction bs generalizing data pos with
  | nil =>
    simp only [writeBytes, List.length_nil, Nat.add_zero]
    rw [if_neg]; omega
  | cons b rest ih =>
    simp only [writeBytes, List.length_cons] at *
    have hfit : pos + 1 + rest.length ≤ (data.set pos b).length := by
      simp only [List.length_set]; omega
    rw [ih (data.set pos b) (pos + 1) hfit]
    split_ifs with h1 h2 h2
    · have hsub : i - pos = (i - (pos + 1)) + 1 := by omega
      rw [hsub, List.getD_cons_succ]
    · omega
    · have hip : i = pos := by omega
      subst hip
      rw [Nat.sub_self, List.getD_cons_zero]
      simp only [List.getD, List.get?_eq_getElem?,
        List.getElem?_set_self (show i < data.length by omega), Option.getD_some]
    · simp only [List.getD, List.get?_eq_getElem?]
      rw [List.getElem?_set_ne (show pos ≠ i by omega)]

theorem writeBytes_getD_lt (bs : List Nat) (data : List Nat) (pos i : Nat)
    (h : pos + bs.length ≤ data.length) (hi : i < pos) :
    (writeBytes data pos bs).getD i 0 = data.getD i 0 := by
  rw [writeBytes_getD bs data pos i h, if_neg (by omega)]

theorem writeBytes_getD_ge (bs : List Nat) (data : List Nat) (pos i : Nat)
    (h : pos + bs.length ≤ data.length) (hi : pos + bs.length ≤ i) :
    (writeBytes data pos bs).getD i 0 = data.getD i 0 := by
  rw [writeBytes_getD bs data pos i h, if_neg (by omega)]

theorem readBytes_length (data : List Nat) (off n : Nat) :
    (readBytes data off n).length = n := by
  simp [readBytes]

theorem readBytes_writeBytes (bs : List Nat) (data : List Nat) (pos : Nat)
    (h : pos + bs.length ≤ data.length) :
    readBytes (writeBytes data pos bs) pos bs.length = bs := by
  apply List.ext_getElem
  · simp [readBytes]
  · intro i hi hlen
    rw [readBytes_length] at hi
    simp only [readBytes, List.getElem_map, List.getElem_range]
    rw [writeBytes_getD bs data pos _ h, if_pos ⟨Nat.le_add_right _ _, by omega⟩]
    simp only [Nat.add_sub_cancel_left]
    simp [List.getD, List.getElem?_eq_getElem hi]

theorem readBytes_congr (data data' : List Nat) (off n : Nat)
    (h : ∀ i, off ≤ i → i < off + n → data.getD i 0 = data'.getD i 0) :
    readBytes data off n = readBytes data' off n := by
  apply List.ext_getElem
  · simp [readBytes]
  · intro i hi hlen
    rw [readBytes_length] at hi
    simp only [readBytes, List.getElem_map, List.getElem_range]
    exact h _ (Nat.le_add_right _ _) (by omega)

/-! ## JavaScript numbers routed into float32 fields

A JavaScript `number` is an IEEE-754 double: NaN, one of the two infinities,
or a finite value (modelled as a rational). `jsLe` is JavaScript's `<=`
operator on these: any comparison involving NaN is `false`. -/

/-- A JavaScript number: NaN, plus or minus infinity, or a finite value. -/
inductive JSNum where
  | nan : JSNum
  | posInf : JSNum
  | negInf : JSNum
  | fin (q : ℚ) : JSNum
deriving DecidableEq

/-- JavaScript's `<=` on numbers: false whenever either side is NaN. -/
def jsLe : JSNum → JSNum → Bool
  | .nan, _ => false
  | _, .nan => false
  | .negInf, _ => true
  | _, .negInf => false
  | _, .posInf => true
  | .posInf, _ => false
  | .fin a, .fin b => decide (a ≤ b)

/-- The validator bound used by every float32 appender:
`const MAX_FLOAT32 = 3.4028235e38`. -/
def MAX_FLOAT32 : ℚ := 3.4028235e38

/-- The range check `-MAX_FLOAT32 <= v && v <= MAX_FLOAT32` performed with
JavaScript comparison semantics (so NaN and the infinities fail it). -/
def float32InRange (v : JSNum) : Prop :=
  jsLe (JSNum.fin (-MAX_FLOAT32)) v = true ∧ jsLe v (JSNum.fin MAX_FLOAT32) = true

instance (v : JSNum) : Decidable (float32InRange v) := by
  unfold float32InRange; infer_instance

/-- Bytes produced by `DataView.setFloat32`. The IEEE-754 bit pattern of a
float is not modelled (floating-point bit layout is outside this shallow
embedding); no theorem below depends on the byte values of a written float,
only on their count (4) and on the buffer range they occupy. -/
def float32Bytes (littleEndian : Bool) (v : JSNum) : List Nat :=
  match littleEndian, v with
  | _, _ => [0, 0, 0, 0]

theorem float32Bytes_length (le : Bool) (v : JSNum) :
    (float32Bytes le v).length = 4 := rfl

/-! ## Value types from `src/domain/shared`

`color` has u8 components, `rect` has u32 components; out-of-range or
negative JavaScript numbers in these record fields pass the appenders'
`typeof ... === "number"` checks, so the components are modelled as integers
(`DataView.setUint8` / `setUint32` wrap them modulo 2^8 / 2^32, as JavaScript
`ToUint8` / `ToUint32` do on integral values). -/

/-- A color value: `{ red, green, blue }`, each a JavaScript number. -/
structure JSColor where
  red : Int
  green : Int
  blue : Int
deriving DecidableEq

/-- A 2D vector `{ x, y }` of JavaScript numbers (float32 fields). -/
structure Vec2 where
  x : JSNum
  y : JSNum
deriving DecidableEq

/-- A 3D vector `{ x, y, z }` of JavaScript numbers (float32 fields). -/
structure Vec3 where
  x : JSNum
  y : JSNum
  z : JSNum
deriving DecidableEq

/-- A quaternion `{ x, y, z, w }` of JavaScript numbers. -/
structure Quat where
  x : JSNum
  y : JSNum
  z : JSNum
  w : JSNum
deriving DecidableEq

/-- A rectangle `{ x, y, width, height }` written as four uint32 fields. -/
structure JSRect where
  x : Int
  y : Int
  width : Int
  height : Int
deriving DecidableEq

/-- An axis-aligned cube: corner point plus edge scale. -/
structure AACube where
  corner : Vec3
  scale : JSNum
deriving DecidableEq

/-- A UUID object wrapping its 128-bit value (class `Uuid` in
`src/domain/shared/Uuid.ts`). -/
structure Uuid where
  value : Nat
deriving DecidableEq

/-- Modelled from the spec: `Uuid.isNull` is not among the sources; per the
spec a null (empty) UUID is the one whose 128-bit value is zero ("empty UUID
encodes as 2-byte length 0"). -/
def Uuid.isNull (u : Uuid) : Bool :=
  u.value == 0

/-- Modelled from the spec: `GLMHelpers.packOrientationQuatToBytes` is not
among the sources. Per the spec a quaternion ships packed into 8 bytes
("three 15-bit signed components plus a 2-bit largest-component index"); the
bit layout is not modelled, no theorem below depends on it - only on the
packed size of 8 bytes. -/
def packOrientationQuatToBytes (q : Quat) : List Nat :=
  match q with
  | _ => [0, 0, 0, 0, 0, 0, 0, 0]

theorem packOrientationQuatToBytes_length (q : Quat) :
    (packOrientationQuatToBytes q).length = 8 := rfl

/-! ## Endian-selectable integer encodings (`DataView.setUintN`)

`UDT.LITTLE_ENDIAN = true`, `UDT.BIG_ENDIAN = false` in the source; the
boolean argument below is that `littleEndian` flag. Integral JavaScript
numbers are wrapped modulo 2^N as `ToUintN` does. -/

/-- Byte list of an N-byte unsigned integer field, little- or big-endian. -/
def uintBytes (numBytes : Nat) (littleEndian : Bool) (v : Nat) : List Nat :=
  if littleEndian then leBytes numBytes v else beBytes numBytes v

theorem uintBytes_length (n : Nat) (le : Bool) (v : Nat) :
    (uintBytes n le v).length = n := by
  unfold uintBytes
  split <;> simp [leBytes_length, beBytes_length]

/-- `ToUint16`-style wrap of an integral JavaScript number. -/
def wrapInt (modulus : Nat) (v : Int) : Nat :=
  (v.emod modulus).toNat

/-! ## `DataViewExtensions.ts`: 128-bit reads and writes

Translated from `setBigUint128` / `getBigUint128`. JavaScript bigint `>> 64n`
and `& 0xffffffffffffffffn` on the (non-negative) sanitized value are integer
division and remainder by 2^64; `DataView.setBigUint64` wraps its value
modulo 2^64 and writes 8 bytes in the selected endianness. -/

/-- `DataView.setBigUint64`: writes `v % 2^64` as 8 bytes at `off`. -/
def setBigUint64 (data : List Nat) (off : Nat) (v : Nat) (littleEndian : Bool) :
    List Nat :=
  writeBytes data off (uintBytes 8 littleEndian (v % 2 ^ 64))

/-- `DataView.getBigUint64`: reads 8 bytes at `off` in the selected
endianness. -/
def getBigUint64 (data : List Nat) (off : Nat) (littleEndian : Bool) : Nat :=
  if littleEndian then leBytesToNat (readBytes data off 8)
  else leBytesToNat (readBytes data off 8).reverse

/-- `const MAX_U128_VALUE = 2n ** 128n - 1n`. -/
def MAX_U128_VALUE : Nat := 2 ^ 128 - 1

/-- `setBigUint128` from `DataViewExtensions.ts`: a value above the 128-bit
maximum is sanitized to `0n`; the two 64-bit halves (`value >> 64n` and
`value & MASK_64_BITS`) are written in endianness-dependent order. -/
def setBigUint128 (data : List Nat) (byteOffset : Nat) (value : Nat)
    (littleEndian : Bool) : List Nat :=
  let sanitizedValue := if value > MAX_U128_VALUE then 0 else value
  if littleEndian then
    setBigUint64 (setBigUint64 data (byteOffset + 8) (sanitizedValue / 2 ^ 64)
      littleEndian) byteOffset (sanitizedValue % 2 ^ 64) littleEndian
  else
    setBigUint64 (setBigUint64 data byteOffset (sanitizedValue / 2 ^ 64)
      littleEndian) (byteOffset + 8) (sanitizedValue % 2 ^ 64) littleEndian

/-- `getBigUint128` from `DataViewExtensions.ts`: the two 64-bit halves read
back and recombined (`high << 64n` is multiplication by 2^64). -/
def getBigUint128 (data : List Nat) (byteOffset : Nat) (littleEndian : Bool) :
    Nat :=
  if littleEndian then
    getBigUint64 data (byteOffset + 8) littleEndian * 2 ^ 64
      + getBigUint64 data byteOffset littleEndian
  else
    getBigUint64 data byteOffset littleEndian * 2 ^ 64
      + getBigUint64 data (byteOffset + 8) littleEndian

/-- The 16 bytes that `setBigUint128` lays down, as one contiguous block in
write order (for big-endian: high half first, each half big-endian - i.e. the
16 bytes of the value in big-endian order). -/
def bigUint128Bytes (littleEndian : Bool) (value : Nat) : List Nat :=
  let sanitizedValue := if value > MAX_U128_VALUE then 0 else value
  if littleEndian then
    uintBytes 8 littleEndian (sanitizedValue % 2 ^ 64)
      ++ uintBytes 8 littleEndian (sanitizedValue / 2 ^ 64 % 2 ^ 64)
  else
    uintBytes 8 littleEndian (sanitizedValue / 2 ^ 64 % 2 ^ 64)
      ++ uintBytes 8 littleEndian (sanitizedValue % 2 ^ 64)

theorem bigUint128Bytes_length (le : Bool) (v : Nat) :
    (bigUint128Bytes le v).length = 16 := by
  unfold bigUint128Bytes
  split <;> split <;> simp [uintBytes_length]

/-! ## UTF-8 (`TextEncoder.encode`)

A JavaScript string is modelled as its list of Unicode code points;
`utf8Encode` is the standard UTF-8 byte encoding that `TextEncoder` performs
on it. -/

/-- UTF-8 bytes of one code point. -/
def utf8EncodeCp (c : Nat) : List Nat :=
  if c < 0x80 then [c]
  else if c < 0x800 then [0xc0 + c / 64, 0x80 + c % 64]
  else if c < 0x10000 then [0xe0 + c / 4096, 0x80 + c / 64 % 64, 0x80 + c % 64]
  else [0xf0 + c / 262144, 0x80 + c / 4096 % 64, 0x80 + c / 64 % 64, 0x80 + c % 64]

/-- UTF-8 bytes of a whole string (list of code points). -/
def utf8Encode (s : List Nat) : List Nat :=
  (s.map utf8EncodeCp).flatten

/-! ## Boolean-array bit packing

`appendBooleanArray` packs the booleans eight per byte, least significant
bit first, flushing a byte every eight elements and after the last one;
byte `j` therefore holds elements `8*j .. 8*j+7`. -/

/-- Value of up to eight booleans as one byte, least significant bit first. -/
def bitsToByte (bs : List Bool) : Nat :=
  bs.foldr (fun b acc => (if b then 1 else 0) + 2 * acc) 0

/-- The packed payload bytes of a boolean array:
`Math.ceil(length / 8)` bytes, byte `j` covering elements `8*j .. 8*j+7`. -/
def packBits (l : List Bool) : List Nat :=
  (List.range ((l.length + 7) / 8)).map fun j => bitsToByte ((l.drop (8 * j)).take 8)

theorem packBits_length (l : List Bool) :
    (packBits l).length = (l.length + 7) / 8 := by
  simp [packBits]

/-! ## Property flags and the packet context

`EntityPropertyFlags` (class `PropertyFlags`) has the semantics of a set of
property codes; `setHasProperty(flag, true/false)` inserts or removes a
code, `getHasProperty(flag)` tests membership. -/

/-- The runtime-set semantics of `EntityPropertyFlags`. -/
abbrev EntityPropertyFlags := Finset Nat

/-- `PropertyFlags.setHasProperty(flag, value)`. -/
def setHasProperty (p : EntityPropertyFlags) (flag : Nat) (value : Bool) :
    EntityPropertyFlags :=
  if value then insert flag p else p.erase flag

/-- `PropertyFlags.getHasProperty(flag)`. -/
def getHasProperty (p : EntityPropertyFlags) (flag : Nat) : Bool :=
  decide (flag ∈ p)

/-- `AppendState` from `src/domain/octree/OctreeElement.ts`: the status of an
append operation. -/
inductive AppendState where
  | COMPLETED : AppendState
  | PARTIAL : AppendState
  | NONE : AppendState
deriving DecidableEq

/-- `OctreePacketContext`: the scratch context threaded through the typed
appenders while one packet is serialized. -/
structure OctreePacketContext where
  propertiesToWrite : EntityPropertyFlags
  propertiesWritten : EntityPropertyFlags
  propertyCount : Nat
  appendState : AppendState
deriving DecidableEq

/-- The outcome of one typed-appender call: the returned byte count, the
buffer after the call (the `DataView` is mutated in place in the source), the
packet context after the call, and whether `console.error` was invoked. -/
structure AppendResult where
  bytes : Nat
  data : List Nat
  ctx : OctreePacketContext
  logged : Bool
deriving DecidableEq

/-- The context update every appender performs on success:
`propertiesToWrite.setHasProperty(flag, false)`,
`propertiesWritten.setHasProperty(flag, true)`, `propertyCount += 1`. -/
def commitProperty (ctx : OctreePacketContext) (flag : Nat) :
    OctreePacketContext :=
  { ctx with
    propertiesToWrite := setHasProperty ctx.propertiesToWrite flag false
    propertiesWritten := setHasProperty ctx.propertiesWritten flag true
    propertyCount := ctx.propertyCount + 1 }

/-- The context update of the did-not-fit branch:
`packetContext.appendState = AppendState.PARTIAL`. -/
def markPartial (ctx : OctreePacketContext) : OctreePacketContext :=
  { ctx with appendState := AppendState.PARTIAL }

/-! ## The typed appenders of `OctreePacketData`

Each appender mirrors the source function of the same name. Conventions:

* the buffer writes of a success branch are gathered into one contiguous
  `writeBytes` whose byte list concatenates the source's `DataView` setter
  calls in order (the setters of one appender write adjacent,
  non-overlapping ranges starting at `dataPosition`);
* `typeof` / `instanceof` parts of a `valid` check hold identically in this
  typed embedding, so a `valid` that consists only of such parts is omitted
  (its `if (!valid)` branch is dead code here);
* the `logged` field records whether the `console.error` branch ran. -/

/-- `OctreePacketData.appendAACubeValue`: validity requires every corner
component in `[-MAX_FLOAT32, MAX_FLOAT32]` and `0.0 <= scale <= MAX_FLOAT32`;
writes 4 little-endian floats (corner x, y, z, then scale). -/
def appendAACubeValue (data : List Nat) (dataPosition : Nat) (flag : Nat)
    (value : AACube) (packetContext : OctreePacketContext) : AppendResult :=
  if float32InRange value.corner.x ∧ float32InRange value.corner.y
      ∧ float32InRange value.corner.z
      ∧ jsLe (JSNum.fin 0) value.scale = true
      ∧ jsLe value.scale (JSNum.fin MAX_FLOAT32) = true then
    -- const NUM_BYTES = 16;  // 4 floats.
    if dataPosition + 16 ≤ data.length then
      { bytes := 16
        data := writeBytes data dataPosition
          (float32Bytes true value.corner.x ++ float32Bytes true value.corner.y
            ++ float32Bytes true value.corner.z ++ float32Bytes true value.scale)
        ctx := commitProperty packetContext flag
        logged := false }
    else
      { bytes := 0, data := data, ctx := markPartial packetContext, logged := false }
  else
    -- console.error("[EntityServer] Cannot write invalid AACube value to packet!");
    { bytes := 0, data := data, ctx := packetContext, logged := true }

/-- `OctreePacketData.appendArrayBufferValue`: a uint16 length field then the
buffer's bytes (the `valid` check is `value instanceof ArrayBuffer` only, so
it always holds here; the entries of an `ArrayBuffer` are bytes). -/
def appendArrayBufferValue (data : List Nat) (dataPosition : Nat) (flag : Nat)
    (value : List Nat) (packetContext : OctreePacketContext) : AppendResult :=
  -- const NUM_BYTES = 2 + value.byteLength;
  if dataPosition + (2 + value.length) ≤ data.length then
    { bytes := 2 + value.length
      data := writeBytes data dataPosition
        (uintBytes 2 true (value.length % 2 ^ 16) ++ value)
      ctx := commitProperty packetContext flag
      logged := false }
  else
    { bytes := 0, data := data, ctx := markPartial packetContext, logged := false }

/-- `OctreePacketData.appendBooleanArray`: validity requires at most 0xffff
elements; writes a uint16 count then the bit-packed payload. -/
def appendBooleanArray (data : List Nat) (dataPosition : Nat) (flag : Nat)
    (value : List Bool) (packetContext : OctreePacketContext) : AppendResult :=
  if value.length ≤ 0xffff then
    -- const NUM_BYTES = 2 + Math.ceil(value.length / 8);
    if dataPosition + (2 + (value.length + 7) / 8) ≤ data.length then
      { bytes := 2 + (value.length + 7) / 8
        data := writeBytes data dataPosition
          (uintBytes 2 true (value.length % 2 ^ 16) ++ packBits value)
        ctx := commitProperty packetContext flag
        logged := false }
    else
      { bytes := 0, data := data, ctx := markPartial packetContext, logged := false }
  else
    -- console.error("[EntityServer] Cannot write invalid boolean array to packet!");
    { bytes := 0, data := data, ctx := packetContext, logged := true }

/-- `OctreePacketData.appendBooleanValue`: one byte, 1 for true, 0 for false
(the `valid` check is `typeof value === "boolean"` only). -/
def appendBooleanValue (data : List Nat) (dataPosition : Nat) (flag : Nat)
    (value : Bool) (packetContext : OctreePacketContext) : AppendResult :=
  -- const NUM_BYTES = 1;
  if dataPosition + 1 ≤ data.length then
    { bytes := 1
      data := writeBytes data dataPosition [if value then 1 else 0]
      ctx := commitProperty packetContext flag
      logged := false }
  else
    { bytes := 0, data := data, ctx := markPartial packetContext, logged := false }

/-- `OctreePacketData.appendColorValue`: three uint8 components (the `valid`
check is `typeof === "number"` on each component only - no range check - so
`DataView.setUint8` wraps out-of-range components modulo 256). -/
def appendColorValue (data : List Nat) (dataPosition : Nat) (flag : Nat)
    (value : JSColor) (packetContext : OctreePacketContext) : AppendResult :=
  -- const NUM_BYTES = 3;
  if dataPosition + 3 ≤ data.length then
    { bytes := 3
      data := writeBytes data dataPosition
        [wrapInt 256 value.red, wrapInt 256 value.green, wrapInt 256 value.blue]
      ctx := commitProperty packetContext flag
      logged := false }
  else
    { bytes := 0, data := data, ctx := markPartial packetContext, logged := false }

/-- `OctreePacketData.appendFloat32Value`: validity is the
`-MAX_FLOAT32 <= value && value <= MAX_FLOAT32` range check (which NaN and
the infinities fail); writes 4 bytes in the requested endianness. -/
def appendFloat32Value (data : List Nat) (dataPosition : Nat) (flag : Nat)
    (value : JSNum) (littleEndian : Bool) (packetContext : OctreePacketContext) :
    AppendResult :=
  if float32InRange value then
    -- const NUM_BYTES = 4;
    if dataPosition + 4 ≤ data.length then
      { bytes := 4
        data := writeBytes data dataPosition (float32Bytes littleEndian value)
        ctx := commitProperty packetContext flag
        logged := false }
    else
      { bytes := 0, data := data, ctx := markPartial packetContext, logged := false }
  else
    -- console.error("[EntityServer] Cannot write invalid float32 value to packet!");
    { bytes := 0, data := data, ctx := packetContext, logged := true }

/-- `OctreePacketData.appendQuatArray`: validity requires at most 0xffff
elements; writes a uint16 count then 8 packed bytes per quaternion. -/
def appendQuatArray (data : List Nat) (dataPosition : Nat) (flag : Nat)
    (value : List Quat) (packetContext : OctreePacketContext) : AppendResult :=
  if value.length ≤ 0xffff then
    -- const NUM_BYTES = 2 + value.length * 8;  // Packed data.
    if dataPosition + (2 + value.length * 8) ≤ data.length then
      { bytes := 2 + value.length * 8
        data := writeBytes data dataPosition
          (uintBytes 2 true (value.length % 2 ^ 16)
            ++ (value.map packOrientationQuatToBytes).flatten)
        ctx := commitProperty packetContext flag
        logged := false }
    else
      { bytes := 0, data := data, ctx := markPartial packetContext, logged := false }
  else
    -- console.error("[EntityServer] Cannot write invalid quat array to packet!");
    { bytes := 0, data := data, ctx := packetContext, logged := true }

/-- `OctreePacketData.appendQuatValue`: 8 packed bytes (the `valid` check is
`typeof === "number"` on each component only). -/
def appendQuatValue (data : List Nat) (dataPosition : Nat) (flag : Nat)
    (value : Quat) (packetContext : OctreePacketContext) : AppendResult :=
  -- const NUM_BYTES = 8;  // Packed data.
  if dataPosition + 8 ≤ data.length then
    { bytes := 8
      data := writeBytes data dataPosition (packOrientationQuatToBytes value)
      ctx := commitProperty packetContext flag
      logged := false }
  else
    { bytes := 0, data := data, ctx := markPartial packetContext, logged := false }

/-- `OctreePacketData.appendRectValue`: four little-endian uint32 fields
(x, y, width, height; the `valid` check is `typeof === "number"` only). -/
def appendRectValue (data : List Nat) (dataPosition : Nat) (flag : Nat)
    (value : JSRect) (packetContext : OctreePacketContext) : AppendResult :=
  -- const NUM_BYTES = 16;  // 4 uint32s.
  if dataPosition + 16 ≤ data.length then
    { bytes := 16
      data := writeBytes data dataPosition
        (uintBytes 4 true (wrapInt (2 ^ 32) value.x)
          ++ uintBytes 4 true (wrapInt (2 ^ 32) value.y)
          ++ uintBytes 4 true (wrapInt (2 ^ 32) value.width)
          ++ uintBytes 4 true (wrapInt (2 ^ 32) value.height))
      ctx := commitProperty packetContext flag
      logged := false }
  else
    { bytes := 0, data := data, ctx := markPartial packetContext, logged := false }

/-- `OctreePacketData.appendStringValue`: a uint16 byte-length field then the
UTF-8 bytes of the string (the `valid` check is `typeof === "string"` only). -/
def appendStringValue (data : List Nat) (dataPosition : Nat) (flag : Nat)
    (value : List Nat) (packetContext : OctreePacketContext) : AppendResult :=
  -- const utf8 = OctreePacketData.#_textEncoder.encode(value);
  -- const NUM_BYTES = 2 + utf8.byteLength;
  if dataPosition + (2 + (utf8Encode value).length) ≤ data.length then
    { bytes := 2 + (utf8Encode value).length
      data := writeBytes data dataPosition
        (uintBytes 2 true ((utf8Encode value).length % 2 ^ 16) ++ utf8Encode value)
      ctx := commitProperty packetContext flag
      logged := false }
  else
    { bytes := 0, data := data, ctx := markPartial packetContext, logged := false }

/-- `OctreePacketData.appendUint8Value`: validity is `0 <= value <= 0xff`;
writes one byte. -/
def appendUint8Value (data : List Nat) (dataPosition : Nat) (flag : Nat)
    (value : Int) (packetContext : OctreePacketContext) : AppendResult :=
  if 0 ≤ value ∧ value ≤ 0xff then
    -- const NUM_BYTES = 1;
    if dataPosition + 1 ≤ data.length then
      { bytes := 1
        data := writeBytes data dataPosition [wrapInt 256 value]
        ctx := commitProperty packetContext flag
        logged := false }
    else
      { bytes := 0, data := data, ctx := markPartial packetContext, logged := false }
  else
    -- console.error("[EntityServer] Cannot write invalid uint8 value to packet!");
    { bytes := 0, data := data, ctx := packetContext, logged := true }

/-- `OctreePacketData.appendUint16Value`: validity is `0 <= value <= 0xffff`;
writes two bytes in the requested endianness. -/
def appendUint16Value (data : List Nat) (dataPosition : Nat) (flag : Nat)
    (value : Int) (littleEndian : Bool) (packetContext : OctreePacketContext) :
    AppendResult :=
  if 0 ≤ value ∧ value ≤ 0xffff then
    -- const NUM_BYTES = 2;
    if dataPosition + 2 ≤ data.length then
      { bytes := 2
        data := writeBytes data dataPosition
          (uintBytes 2 littleEndian (wrapInt (2 ^ 16) value))
        ctx := commitProperty packetContext flag
        logged := false }
    else
      { bytes := 0, data := data, ctx := markPartial packetContext, logged := false }
  else
    -- console.error("[EntityServer] Cannot write invalid uint16 value to packet!");
    { bytes := 0, data := data, ctx := packetContext, logged := true }

/-- `OctreePacketData.appendUint32Value`: validity is
`0 <= value <= 0xffffffff`; writes four bytes in the requested endianness. -/
def appendUint32Value (data : List Nat) (dataPosition : Nat) (flag : Nat)
    (value : Int) (littleEndian : Bool) (packetContext : OctreePacketContext) :
    AppendResult :=
  if 0 ≤ value ∧ value ≤ 0xffffffff then
    -- const NUM_BYTES = 4;
    if dataPosition + 4 ≤ data.length then
      { bytes := 4
        data := writeBytes data dataPosition
          (uintBytes 4 littleEndian (wrapInt (2 ^ 32) value))
        ctx := commitProperty packetContext flag
        logged := false }
    else
      { bytes := 0, data := data, ctx := markPartial packetContext, logged := false }
  else
    -- console.error("[EntityServer] Cannot write invalid uint32 value to packet!");
    { bytes := 0, data := data, ctx := packetContext, logged := true }

/-- `OctreePacketData.appendUint64Value`: validity is
`0 <= value <= 0xffffffffffffffff` on the bigint; writes eight bytes via
`DataView.setBigUint64`. -/
def appendUint64Value (data : List Nat) (dataPosition : Nat) (flag : Nat)
    (value : Int) (littleEndian : Bool) (packetContext : OctreePacketContext) :
    AppendResult :=
  if 0 ≤ value ∧ value ≤ 0xffffffffffffffff then
    -- const NUM_BYTES = 8;
    if dataPosition + 8 ≤ data.length then
      { bytes := 8
        data := writeBytes data dataPosition
          (uintBytes 8 littleEndian (wrapInt (2 ^ 64) value))
        ctx := commitProperty packetContext flag
        logged := false }
    else
      { bytes := 0, data := data, ctx := markPartial packetContext, logged := false }
  else
    -- console.error("[EntityServer] Cannot write invalid uint64 value to packet!");
    { bytes := 0, data := data, ctx := packetContext, logged := true }

/-- `OctreePacketData.appendUuidArray`: validity requires at most 0xffff
elements; writes a uint16 count then each UUID's 16 bytes big-endian via
`DataView.setBigUint128(.., UDT.BIG_ENDIAN)`. -/
def appendUuidArray (data : List Nat) (dataPosition : Nat) (flag : Nat)
    (value : List Uuid) (packetContext : OctreePacketContext) : AppendResult :=
  if value.length ≤ 0xffff then
    -- const NUM_BYTES = 2 + value.length * 16;
    if dataPosition + (2 + value.length * 16) ≤ data.length then
      { bytes := 2 + value.length * 16
        data := writeBytes data dataPosition
          (uintBytes 2 true (value.length % 2 ^ 16)
            ++ (value.map fun u => bigUint128Bytes false u.value).flatten)
        ctx := commitProperty packetContext flag
        logged := false }
    else
      { bytes := 0, data := data, ctx := markPartial packetContext, logged := false }
  else
    -- console.error("[EntityServer] Cannot write invalid UUID array to packet!");
    { bytes := 0, data := data, ctx := packetContext, logged := true }

/-- `OctreePacketData.appendUuidValue`: a null UUID is a bare zero uint16
length field; a non-null UUID is a uint16 length field of 16 then the 16
UUID bytes big-endian (the `valid` check is `value instanceof Uuid` only). -/
def appendUuidValue (data : List Nat) (dataPosition : Nat) (flag : Nat)
    (value : Uuid) (packetContext : OctreePacketContext) : AppendResult :=
  if value.isNull then
    -- const NUM_BYTES = 2;
    if dataPosition + 2 ≤ data.length then
      { bytes := 2
        data := writeBytes data dataPosition (uintBytes 2 true (0 % 2 ^ 16))
        ctx := commitProperty packetContext flag
        logged := false }
    else
      { bytes := 0, data := data, ctx := markPartial packetContext, logged := false }
  else
    -- const NUM_LENGTH_BYTES = 2; const NUM_VALUE_BYTES = 16;
    if dataPosition + 18 ≤ data.length then
      { bytes := 18
        data := writeBytes data dataPosition
          (uintBytes 2 true (16 % 2 ^ 16) ++ bigUint128Bytes false value.value)
        ctx := commitProperty packetContext flag
        logged := false }
    else
      { bytes := 0, data := data, ctx := markPartial packetContext, logged := false }

/-- `OctreePacketData.appendVec2Value`: validity requires both components in
`[-MAX_FLOAT32, MAX_FLOAT32]`; writes two little-endian floats. -/
def appendVec2Value (data : List Nat) (dataPosition : Nat) (flag : Nat)
    (value : Vec2) (packetContext : OctreePacketContext) : AppendResult :=
  if float32InRange value.x ∧ float32InRange value.y then
    -- const NUM_BYTES = 8;  // 2 floats.
    if dataPosition + 8 ≤ data.length then
      { bytes := 8
        data := writeBytes data dataPosition
          (float32Bytes true value.x ++ float32Bytes true value.y)
        ctx := commitProperty packetContext flag
        logged := false }
    else
      { bytes := 0, data := data, ctx := markPartial packetContext, logged := false }
  else
    -- console.error("[EntityServer] Cannot write invalid vec2 value to packet!");
    { bytes := 0, data := data, ctx := packetContext, logged := true }

/-- `OctreePacketData.appendVec3Array`: validity requires at most 0xffff
elements, each with every component in `[-MAX_FLOAT32, MAX_FLOAT32]`; writes
a uint16 count then three little-endian floats per element. -/
def appendVec3Array (data : List Nat) (dataPosition : Nat) (flag : Nat)
    (value : List Vec3) (packetContext : OctreePacketContext) : AppendResult :=
  if value.length ≤ 0xffff ∧ ∀ e ∈ value,
      float32InRange e.x ∧ float32InRange e.y ∧ float32InRange e.z then
    -- const NUM_BYTES = 2 + value.length * 12;  // Count + 3 floats per element.
    if dataPosition + (2 + value.length * 12) ≤ data.length then
      { bytes := 2 + value.length * 12
        data := writeBytes data dataPosition
          (uintBytes 2 true (value.length % 2 ^ 16)
            ++ (value.map fun e =>
              float32Bytes true e.x ++ float32Bytes true e.y
                ++ float32Bytes true e.z).flatten)
        ctx := commitProperty packetContext flag
        logged := false }
    else
      { bytes := 0, data := data, ctx := markPartial packetContext, logged := false }
  else
    -- console.error("[EntityServer] Cannot write invalid vec3 array to packet!");
    { bytes := 0, data := data, ctx := packetContext, logged := true }

/-- `OctreePacketData.appendVec3Value`: validity requires every component in
`[-MAX_FLOAT32, MAX_FLOAT32]`; writes three little-endian floats. -/
def appendVec3Value (data : List Nat) (dataPosition : Nat) (flag : Nat)
    (value : Vec3) (packetContext : OctreePacketContext) : AppendResult :=
  if float32InRange value.x ∧ float32InRange value.y ∧ float32InRange value.z then
    -- const NUM_BYTES = 12;  // 3 floats.
    if dataPosition + 12 ≤ data.length then
      { bytes := 12
        data := writeBytes data dataPosition
          (float32Bytes true value.x ++ float32Bytes true value.y
            ++ float32Bytes true value.z)
        ctx := commitProperty packetContext flag
        logged := false }
    else
      { bytes := 0, data := data, ctx := markPartial packetContext, logged := false }
  else
    -- console.error("[EntityServer] Cannot write invalid vec3 value to packet!");
    { bytes := 0, data := data, ctx := packetContext, logged := true }

/-! ## Ranging over all nineteen typed appenders

`TypedValue` packages one argument for one appender, so a quantification
over `TypedValue` is a quantification over every typed-appender call. -/

/-- A value handed to one of the nineteen typed appenders. -/
inductive TypedValue where
  | aacube (value : AACube)
  | arrayBuffer (value : List Nat)
  | booleanArray (value : List Bool)
  | boolean (value : Bool)
  | color (value : JSColor)
  | float32 (value : JSNum) (littleEndian : Bool)
  | quatArray (value : List Quat)
  | quat (value : Quat)
  | rect (value : JSRect)
  | string (value : List Nat)
  | uint8 (value : Int)
  | uint16 (value : Int) (littleEndian : Bool)
  | uint32 (value : Int) (littleEndian : Bool)
  | uint64 (value : Int) (littleEndian : Bool)
  | uuidArray (value : List Uuid)
  | uuid (value : Uuid)
  | vec2 (value : Vec2)
  | vec3Array (value : List Vec3)
  | vec3 (value : Vec3)

/-- Dispatch to the typed appender matching the value. -/
def appendValue (v : TypedValue) (data : List Nat) (dataPosition flag : Nat)
    (packetContext : OctreePacketContext) : AppendResult :=
  match v with
  | .aacube value => appendAACubeValue data dataPosition flag value packetContext
  | .arrayBuffer value => appendArrayBufferValue data dataPosition flag value packetContext
  | .booleanArray value => appendBooleanArray data dataPosition flag value packetContext
  | .boolean value => appendBooleanValue data dataPosition flag value packetContext
  | .color value => appendColorValue data dataPosition flag value packetContext
  | .float32 value le => appendFloat32Value data dataPosition flag value le packetContext
  | .quatArray value => appendQuatArray data dataPosition flag value packetContext
  | .quat value => appendQuatValue data dataPosition flag value packetContext
  | .rect value => appendRectValue data dataPosition flag value packetContext
  | .string value => appendStringValue data dataPosition flag value packetContext
  | .uint8 value => appendUint8Value data dataPosition flag value packetContext
  | .uint16 value le => appendUint16Value data dataPosition flag value le packetContext
  | .uint32 value le => appendUint32Value data dataPosition flag value le packetContext
  | .uint64 value le => appendUint64Value data dataPosition flag value le packetContext
  | .uuidArray value => appendUuidArray data dataPosition flag value packetContext
  | .uuid value => appendUuidValue data dataPosition flag value packetContext
  | .vec2 value => appendVec2Value data dataPosition flag value packetContext
  | .vec3Array value => appendVec3Array data dataPosition flag value packetContext
  | .vec3 value => appendVec3Value data dataPosition flag value packetContext

/-- The appender's `valid` check for the value (`typeof` / `instanceof`
parts hold identically in the typed embedding and appear as `True`). -/
def validValue : TypedValue → Prop
  | .aacube value => float32InRange value.corner.x ∧ float32InRange value.corner.y
      ∧ float32InRange value.corner.z
      ∧ jsLe (JSNum.fin 0) value.scale = true
      ∧ jsLe value.scale (JSNum.fin MAX_FLOAT32) = true
  | .arrayBuffer _ => True
  | .booleanArray value => value.length ≤ 0xffff
  | .boolean _ => True
  | .color _ => True
  | .float32 value _ => float32InRange value
  | .quatArray value => value.length ≤ 0xffff
  | .quat _ => True
  | .rect _ => True
  | .string _ => True
  | .uint8 value => 0 ≤ value ∧ value ≤ 0xff
  | .uint16 value _ => 0 ≤ value ∧ value ≤ 0xffff
  | .uint32 value _ => 0 ≤ value ∧ value ≤ 0xffffffff
  | .uint64 value _ => 0 ≤ value ∧ value ≤ 0xffffffffffffffff
  | .uuidArray value => value.length ≤ 0xffff
  | .uuid _ => True
  | .vec2 value => float32InRange value.x ∧ float32InRange value.y
  | .vec3Array value => value.length ≤ 0xffff ∧ ∀ e ∈ value,
      float32InRange e.x ∧ float32InRange e.y ∧ float32InRange e.z
  | .vec3 value => float32InRange value.x ∧ float32InRange value.y
      ∧ float32InRange value.z

instance validValue.instDecidable (v : TypedValue) : Decidable (validValue v) := by
  cases v <;> (unfold validValue; infer_instance)

/-- The serialized size `N` of the value. -/
def numBytesValue : TypedValue → Nat
  | .aacube _ => 16
  | .arrayBuffer value => 2 + value.length
  | .booleanArray value => 2 + (value.length + 7) / 8
  | .boolean _ => 1
  | .color _ => 3
  | .float32 _ _ => 4
  | .quatArray value => 2 + value.length * 8
  | .quat _ => 8
  | .rect _ => 16
  | .string value => 2 + (utf8Encode value).length
  | .uint8 _ => 1
  | .uint16 _ _ => 2
  | .uint32 _ _ => 4
  | .uint64 _ _ => 8
  | .uuidArray value => 2 + value.length * 16
  | .uuid value => if value.isNull then 2 else 18
  | .vec2 _ => 8
  | .vec3Array value => 2 + value.length * 12
  | .vec3 _ => 12

/-- The byte block the appender lays down on success. -/
def encodeValue : TypedValue → List Nat
  | .aacube value => float32Bytes true value.corner.x ++ float32Bytes true value.corner.y
      ++ float32Bytes true value.corner.z ++ float32Bytes true value.scale
  | .arrayBuffer value => uintBytes 2 true (value.length % 2 ^ 16) ++ value
  | .booleanArray value => uintBytes 2 true (value.length % 2 ^ 16) ++ packBits value
  | .boolean value => [if value then 1 else 0]
  | .color value => [wrapInt 256 value.red, wrapInt 256 value.green, wrapInt 256 value.blue]
  | .float32 value le => float32Bytes le value
  | .quatArray value => uintBytes 2 true (value.length % 2 ^ 16)
      ++ (value.map packOrientationQuatToBytes).flatten
  | .quat value => packOrientationQuatToBytes value
  | .rect value => uintBytes 4 true (wrapInt (2 ^ 32) value.x)
      ++ uintBytes 4 true (wrapInt (2 ^ 32) value.y)
      ++ uintBytes 4 true (wrapInt (2 ^ 32) value.width)
      ++ uintBytes 4 true (wrapInt (2 ^ 32) value.height)
  | .string value => uintBytes 2 true ((utf8Encode value).length % 2 ^ 16)
      ++ utf8Encode value
  | .uint8 value => [wrapInt 256 value]
  | .uint16 value le => uintBytes 2 le (wrapInt (2 ^ 16) value)
  | .uint32 value le => uintBytes 4 le (wrapInt (2 ^ 32) value)
  | .uint64 value le => uintBytes 8 le (wrapInt (2 ^ 64) value)
  | .uuidArray value => uintBytes 2 true (value.length % 2 ^ 16)
      ++ (value.map fun u => bigUint128Bytes false u.value).flatten
  | .uuid value => if value.isNull then uintBytes 2 true (0 % 2 ^ 16)
      else uintBytes 2 true (16 % 2 ^ 16) ++ bigUint128Bytes false value.value
  | .vec2 value => float32Bytes true value.x ++ float32Bytes true value.y
  | .vec3Array value => uintBytes 2 true (value.length % 2 ^ 16)
      ++ (value.map fun e => float32Bytes true e.x ++ float32Bytes true e.y
        ++ float32Bytes true e.z).flatten
  | .vec3 value => float32Bytes true value.x ++ float32Bytes true value.y
      ++ float32Bytes true value.z

theorem flatten_map_length {α : Type} (f : α → List Nat) (k : Nat)
    (hf : ∀ x, (f x).length = k) (l : List α) :
    ((l.map f).flatten).length = l.length * k := by
  induction l with
  | nil => simp
  | cons a rest ih => simp [hf, ih]; ring

/-- The encoding really occupies `N = numBytesValue` bytes. -/
theorem encodeValue_length (v : TypedValue) :
    (encodeValue v).length = numBytesValue v := by
  cases v with
  | aacube value => simp [encodeValue, numBytesValue, float32Bytes_length]
  | arrayBuffer value => simp [encodeValue, numBytesValue, uintBytes_length]
  | booleanArray value =>
    simp [encodeValue, numBytesValue, uintBytes_length, packBits_length]
  | boolean value => simp [encodeValue, numBytesValue]
  | color value => simp [encodeValue, numBytesValue]
  | float32 value le => simp [encodeValue, numBytesValue, float32Bytes_length]
  | quatArray value =>
    simp [encodeValue, numBytesValue, uintBytes_length,
      flatten_map_length packOrientationQuatToBytes 8 packOrientationQuatToBytes_length]
  | quat value => simp [encodeValue, numBytesValue, packOrientationQuatToBytes_length]
  | rect value => simp [encodeValue, numBytesValue, uintBytes_length]
  | string value => simp [encodeValue, numBytesValue, uintBytes_length]
  | uint8 value => simp [encodeValue, numBytesValue]
  | uint16 value le => simp [encodeValue, numBytesValue, uintBytes_length]
  | uint32 value le => simp [encodeValue, numBytesValue, uintBytes_length]
  | uint64 value le => simp [encodeValue, numBytesValue, uintBytes_length]
  | uuidArray value =>
    simp [encodeValue, numBytesValue, uintBytes_length,
      flatten_map_length (fun u : Uuid => bigUint128Bytes false u.value) 16
        (fun u => bigUint128Bytes_length false u.value)]
  | uuid value =>
    by_cases hn : value.isNull <;>
      simp [encodeValue, numBytesValue, hn, uintBytes_length, bigUint128Bytes_length]
  | vec2 value => simp [encodeValue, numBytesValue, float32Bytes_length]
  | vec3Array value =>
    have h12 : ∀ e : Vec3, (float32Bytes true e.x ++ float32Bytes true e.y
        ++ float32Bytes true e.z).length = 12 := fun e => by simp [float32Bytes_length]
    simp only [encodeValue, numBytesValue, List.length_append, uintBytes_length,
      flatten_map_length _ 12 h12]
  | vec3 value => simp [encodeValue, numBytesValue, float32Bytes_length]

/-- Success branch: a valid value that fits is written as one contiguous
block, the context is committed, and `N` is returned. -/
theorem appendValue_success (v : TypedValue) (data : List Nat) (pos flag : Nat)
    (ctx : OctreePacketContext) (hv : validValue v)
    (hfit : pos + numBytesValue v ≤ data.length) :
    appendValue v data pos flag ctx =
      { bytes := numBytesValue v
        data := writeBytes data pos (encodeValue v)
        ctx := commitProperty ctx flag
        logged := false } := by
  cases v with
  | aacube value =>
    simp only [validValue] at hv
    simp only [numBytesValue] at hfit
    simp only [appendValue, appendAACubeValue, numBytesValue, encodeValue]
    rw [if_pos hv, if_pos hfit]
  | arrayBuffer value =>
    simp only [numBytesValue] at hfit
    simp only [appendValue, appendArrayBufferValue, numBytesValue, encodeValue]
    rw [if_pos hfit]
  | booleanArray value =>
    simp only [validValue] at hv
    simp only [numBytesValue] at hfit
    simp only [appendValue, appendBooleanArray, numBytesValue, encodeValue]
    rw [if_pos hv, if_pos hfit]
  | boolean value =>
    simp only [numBytesValue] at hfit
    simp only [appendValue, appendBooleanValue, numBytesValue, encodeValue]
    rw [if_pos hfit]
  | color value =>
    simp only [numBytesValue] at hfit
    simp only [appendValue, appendColorValue, numBytesValue, encodeValue]
    rw [if_pos hfit]
  | float32 value le =>
    simp only [validValue] at hv
    simp only [numBytesValue] at hfit
    simp only [appendValue, appendFloat32Value, numBytesValue, encodeValue]
    rw [if_pos hv, if_pos hfit]
  | quatArray value =>
    simp only [validValue] at hv
    simp only [numBytesValue] at hfit
    simp only [appendValue, appendQuatArray, numBytesValue, encodeValue]
    rw [if_pos hv, if_pos hfit]
  | quat value =>
    simp only [numBytesValue] at hfit
    simp only [appendValue, appendQuatValue, numBytesValue, encodeValue]
    rw [if_pos hfit]
  | rect value =>
    simp only [numBytesValue] at hfit
    simp only [appendValue, appendRectValue, numBytesValue, encodeValue]
    rw [if_pos hfit]
  | string value =>
    simp only [numBytesValue] at hfit
    simp only [appendValue, appendStringValue, numBytesValue, encodeValue]
    rw [if_pos hfit]
  | uint8 value =>
    simp only [validValue] at hv
    simp only [numBytesValue] at hfit
    simp only [appendValue, appendUint8Value, numBytesValue, encodeValue]
    rw [if_pos hv, if_pos hfit]
  | uint16 value le =>
    simp only [validValue] at hv
    simp only [numBytesValue] at hfit
    simp only [appendValue, appendUint16Value, numBytesValue, encodeValue]
    rw [if_pos hv, if_pos hfit]
  | uint32 value le =>
    simp only [validValue] at hv
    simp only [numBytesValue] at hfit
    simp only [appendValue, appendUint32Value, numBytesValue, encodeValue]
    rw [if_pos hv, if_pos hfit]
  | uint64 value le =>
    simp only [validValue] at hv
    simp only [numBytesValue] at hfit
    simp only [appendValue, appendUint64Value, numBytesValue, encodeValue]
    rw [if_pos hv, if_pos hfit]
  | uuidArray value =>
    simp only [validValue] at hv
    simp only [numBytesValue] at hfit
    simp only [appendValue, appendUuidArray, numBytesValue, encodeValue]
    rw [if_pos hv, if_pos hfit]
  | uuid value =>
    by_cases hn : value.isNull = true
    · simp only [numBytesValue, hn, if_pos] at hfit
      simp only [appendValue, appendUuidValue, numBytesValue, encodeValue, hn,
        if_pos trivial, if_true]
      rw [if_pos hfit]
    · simp only [numBytesValue, hn, if_false, Bool.false_eq_true] at hfit
      simp only [appendValue, appendUuidValue, numBytesValue, encodeValue, hn,
        Bool.false_eq_true, if_false]
      rw [if_pos hfit]
  | vec2 value =>
    simp only [validValue] at hv
    simp only [numBytesValue] at hfit
    simp only [appendValue, appendVec2Value, numBytesValue, encodeValue]
    rw [if_pos hv, if_pos hfit]
  | vec3Array value =>
    simp only [validValue] at hv
    simp only [numBytesValue] at hfit
    simp only [appendValue, appendVec3Array, numBytesValue, encodeValue]
    rw [if_pos hv, if_pos hfit]
  | vec3 value =>
    simp only [validValue] at hv
    simp only [numBytesValue] at hfit
    simp only [appendValue, appendVec3Value, numBytesValue, encodeValue]
    rw [if_pos hv, if_pos hfit]

/-- Did-not-fit branch: a valid value with too little room writes nothing,
flips `appendState` to `PARTIAL`, and returns 0. -/
theorem appendValue_didNotFit (v : TypedValue) (data : List Nat) (pos flag : Nat)
    (ctx : OctreePacketContext) (hv : validValue v)
    (hnofit : ¬pos + numBytesValue v ≤ data.length) :
    appendValue v data pos flag ctx =
      { bytes := 0, data := data, ctx := markPartial ctx, logged := false } := by
  cases v with
  | aacube value =>
    simp only [validValue] at hv
    simp only [numBytesValue] at hnofit
    simp only [appendValue, appendAACubeValue]
    rw [if_pos hv, if_neg hnofit]
  | arrayBuffer value =>
    simp only [numBytesValue] at hnofit
    simp only [appendValue, appendArrayBufferValue]
    rw [if_neg hnofit]
  | booleanArray value =>
    simp only [validValue] at hv
    simp only [numBytesValue] at hnofit
    simp only [appendValue, appendBooleanArray]
    rw [if_pos hv, if_neg hnofit]
  | boolean value =>
    simp only [numBytesValue] at hnofit
    simp only [appendValue, appendBooleanValue]
    rw [if_neg hnofit]
  | color value =>
    simp only [numBytesValue] at hnofit
    simp only [appendValue, appendColorValue]
    rw [if_neg hnofit]
  | float32 value le =>
    simp only [validValue] at hv
    simp only [numBytesValue] at hnofit
    simp only [appendValue, appendFloat32Value]
    rw [if_pos hv, if_neg hnofit]
  | quatArray value =>
    simp only [validValue] at hv
    simp only [numBytesValue] at hnofit
    simp only [appendValue, appendQuatArray]
    rw [if_pos hv, if_neg hnofit]
  | quat value =>
    simp only [numBytesValue] at hnofit
    simp only [appendValue, appendQuatValue]
    rw [if_neg hnofit]
  | rect value =>
    simp only [numBytesValue] at hnofit
    simp only [appendValue, appendRectValue]
    rw [if_neg hnofit]
  | string value =>
    simp only [numBytesValue] at hnofit
    simp only [appendValue, appendStringValue]
    rw [if_neg hnofit]
  | uint8 value =>
    simp only [validValue] at hv
    simp only [numBytesValue] at hnofit
    simp only [appendValue, appendUint8Value]
    rw [if_pos hv, if_neg hnofit]
  | uint16 value le =>
    simp only [validValue] at hv
    simp only [numBytesValue] at hnofit
    simp only [appendValue, appendUint16Value]
    rw [if_pos hv, if_neg hnofit]
  | uint32 value le =>
    simp only [validValue] at hv
    simp only [numBytesValue] at hnofit
    simp only [appendValue, appendUint32Value]
    rw [if_pos hv, if_neg hnofit]
  | uint64 value le =>
    simp only [validValue] at hv
    simp only [numBytesValue] at hnofit
    simp only [appendValue, appendUint64Value]
    rw [if_pos hv, if_neg hnofit]
  | uuidArray value =>
    simp only [validValue] at hv
    simp only [numBytesValue] at hnofit
    simp only [appendValue, appendUuidArray]
    rw [if_pos hv, if_neg hnofit]
  | uuid value =>
    by_cases hn : value.isNull = true
    · simp only [numBytesValue, hn, if_pos] at hnofit
      simp only [appendValue, appendUuidValue, hn, if_pos trivial, if_true]
      rw [if_neg hnofit]
    · simp only [numBytesValue, hn, if_false, Bool.false_eq_true] at hnofit
      simp only [appendValue, appendUuidValue, hn, Bool.false_eq_true, if_false]
      rw [if_neg hnofit]
  | vec2 value =>
    simp only [validValue] at hv
    simp only [numBytesValue] at hnofit
    simp only [appendValue, appendVec2Value]
    rw [if_pos hv, if_neg hnofit]
  | vec3Array value =>
    simp only [validValue] at hv
    simp only [numBytesValue] at hnofit
    simp only [appendValue, appendVec3Array]
    rw [if_pos hv, if_neg hnofit]
  | vec3 value =>
    simp only [validValue] at hv
    simp only [numBytesValue] at hnofit
    simp only [appendValue, appendVec3Value]
    rw [if_pos hv, if_neg hnofit]

/-- Invalid branch: a value failing the `valid` check logs an error, writes
nothing, leaves the context untouched, and returns 0. -/
theorem appendValue_invalid (v : TypedValue) (data : List Nat) (pos flag : Nat)
    (ctx : OctreePacketContext) (hv : ¬validValue v) :
    appendValue v data pos flag ctx =
      { bytes := 0, data := data, ctx := ctx, logged := true } := by
  cases v with
  | aacube value =>
    simp only [validValue] at hv
    simp only [appendValue, appendAACubeValue]
    rw [if_neg hv]
  | arrayBuffer value => exact absurd trivial hv
  | booleanArray value =>
    simp only [validValue] at hv
    simp only [appendValue, appendBooleanArray]
    rw [if_neg hv]
  | boolean value => exact absurd trivial hv
  | color value => exact absurd trivial hv
  | float32 value le =>
    simp only [validValue] at hv
    simp only [appendValue, appendFloat32Value]
    rw [if_neg hv]
  | quatArray value =>
    simp only [validValue] at hv
    simp only [appendValue, appendQuatArray]
    rw [if_neg hv]
  | quat value => exact absurd trivial hv
  | rect value => exact absurd trivial hv
  | string value => exact absurd trivial hv
  | uint8 value =>
    simp only [validValue] at hv
    simp only [appendValue, appendUint8Value]
    rw [if_neg hv]
  | uint16 value le =>
    simp only [validValue] at hv
    simp only [appendValue, appendUint16Value]
    rw [if_neg hv]
  | uint32 value le =>
    simp only [validValue] at hv
    simp only [appendValue, appendUint32Value]
    rw [if_neg hv]
  | uint64 value le =>
    simp only [validValue] at hv
    simp only [appendValue, appendUint64Value]
    rw [if_neg hv]
  | uuidArray value =>
    simp only [validValue] at hv
    simp only [appendValue, appendUuidArray]
    rw [if_neg hv]
  | uuid value => exact absurd trivial hv
  | vec2 value =>
    simp only [validValue] at hv
    simp only [appendValue, appendVec2Value]
    rw [if_neg hv]
  | vec3Array value =>
    simp only [validValue] at hv
    simp only [appendValue, appendVec3Array]
    rw [if_neg hv]
  | vec3 value =>
    simp only [validValue] at hv
    simp only [appendValue, appendVec3Value]
    rw [if_neg hv]

/-! ## Read-after-write lemmas for the 128-bit codec -/

theorem readBytes_writeBytes_len (bs : List Nat) (data : List Nat) (pos n : Nat)
    (hn : bs.length = n) (h : pos + n ≤ data.length) :
    readBytes (writeBytes data pos bs) pos n = bs := by
  subst hn
  exact readBytes_writeBytes bs data pos h

theorem readBytes_writeBytes_above (bs : List Nat) (data : List Nat)
    (pos off n : Nat) (h : pos + bs.length ≤ data.length)
    (hdis : pos + bs.length ≤ off) :
    readBytes (writeBytes data pos bs) off n = readBytes data off n := by
  apply readBytes_congr
  intro i hlo hhi
  exact writeBytes_getD_ge bs data pos i h (by omega)

theorem readBytes_writeBytes_below (bs : List Nat) (data : List Nat)
    (pos off n : Nat) (h : pos + bs.length ≤ data.length)
    (hdis : off + n ≤ pos) :
    readBytes (writeBytes data pos bs) off n = readBytes data off n := by
  apply readBytes_congr
  intro i hlo hhi
  exact writeBytes_getD_lt bs data pos i h (by omega)

/-- C5: for every bigint `x` with `0 <= x < 2^128`, every byte offset with 16
bytes of room, and each endianness, `DataView.setBigUint128` followed by
`DataView.getBigUint128` at the same offset and endianness returns `x`. -/
theorem claim_C5 (data : List Nat) (byteOffset x : Nat) (littleEndian : Bool)
    (hx : x < 2 ^ 128) (hroom : byteOffset + 16 ≤ data.length) :
    getBigUint128 (setBigUint128 data byteOffset x littleEndian) byteOffset
      littleEndian = x := by
  have hxm : ¬x > MAX_U128_VALUE := by
    unfold MAX_U128_VALUE
    omega
  have h2 : (256 : Nat) ^ 8 = 2 ^ 64 := by norm_num
  have hdivlt : x / 2 ^ 64 < 2 ^ 64 := by
    refine Nat.div_lt_of_lt_mul ?_
    calc x < 2 ^ 128 := hx
    _ = 2 ^ 64 * 2 ^ 64 := by norm_num
  cases littleEndian with
  | true =>
    simp only [setBigUint128, setBigUint64, getBigUint128, getBigUint64,
      uintBytes, if_neg hxm, if_true]
    rw [readBytes_writeBytes_above _ _ _ _ _
        (by rw [leBytes_length, writeBytes_length]; omega)
        (by rw [leBytes_length]),
      readBytes_writeBytes_len _ _ _ _ (leBytes_length _ _) (by omega),
      readBytes_writeBytes_len _ _ _ _ (leBytes_length _ _)
        (by rw [writeBytes_length]; omega)]
    simp only [leBytesToNat_leBytes, h2]
    omega
  | false =>
    simp only [setBigUint128, setBigUint64, getBigUint128, getBigUint64,
      uintBytes, if_neg hxm, Bool.false_eq_true, if_false]
    rw [readBytes_writeBytes_below _ _ _ _ _
        (by rw [beBytes_length, writeBytes_length]; omega)
        (by omega),
      readBytes_writeBytes_len _ _ _ _ (beBytes_length _ _) (by omega),
      readBytes_writeBytes_len _ _ _ _ (beBytes_length _ _)
        (by rw [writeBytes_length]; omega)]
    simp only [beBytes, List.reverse_reverse, leBytesToNat_leBytes, h2]
    omega

/-- C5 witness: a concrete 128-bit round trip. -/
theorem claim_C5_witness :
    getBigUint128 (setBigUint128 (List.replicate 16 7) 0 77 true) 0 true = 77
      ∧ getBigUint128 (setBigUint128 (List.replicate 16 7) 0 77 false) 0 false = 77 :=
  ⟨claim_C5 (List.replicate 16 7) 0 77 true (by decide) (by decide),
    claim_C5 (List.replicate 16 7) 0 77 false (by decide) (by decide)⟩

/-! ## Claims about the typed appenders -/

/-- C1: for every typed appender, a valid value with room writes exactly `N`
bytes starting at `dataPosition`, clears the flag in `propertiesToWrite`,
sets it in `propertiesWritten`, increments `propertyCount`, leaves
`appendState` unchanged, and returns `N`. -/
theorem claim_C1 (v : TypedValue) (data : List Nat) (pos flag : Nat)
    (ctx : OctreePacketContext) (hv : validValue v)
    (hfit : pos + numBytesValue v ≤ data.length) :
    (appendValue v data pos flag ctx).bytes = numBytesValue v
    ∧ (appendValue v data pos flag ctx).data = writeBytes data pos (encodeValue v)
    ∧ (encodeValue v).length = numBytesValue v
    ∧ ((appendValue v data pos flag ctx).data).length = data.length
    ∧ (∀ i, i < pos →
        ((appendValue v data pos flag ctx).data).getD i 0 = data.getD i 0)
    ∧ (∀ i, pos + numBytesValue v ≤ i →
        ((appendValue v data pos flag ctx).data).getD i 0 = data.getD i 0)
    ∧ (appendValue v data pos flag ctx).ctx.propertiesToWrite
        = setHasProperty ctx.propertiesToWrite flag false
    ∧ (appendValue v data pos flag ctx).ctx.propertiesWritten
        = setHasProperty ctx.propertiesWritten flag true
    ∧ (appendValue v data pos flag ctx).ctx.propertyCount = ctx.propertyCount + 1
    ∧ (appendValue v data pos flag ctx).ctx.appendState = ctx.appendState := by
  have henc : pos + (encodeValue v).length ≤ data.length := by
    rw [encodeValue_length]; exact hfit
  rw [appendValue_success v data pos flag ctx hv hfit]
  refine ⟨rfl, rfl, encodeValue_length v, writeBytes_length _ _ _, ?_, ?_,
    rfl, rfl, rfl, rfl⟩
  · intro i hi
    exact writeBytes_getD_lt _ _ _ _ henc hi
  · intro i hi
    refine writeBytes_getD_ge _ _ _ _ henc ?_
    rw [encodeValue_length]
    exact hi

/-- C1 witness: the uint8 appender on a concrete buffer. -/
theorem claim_C1_witness :
    (appendValue (TypedValue.uint8 7) [9, 9, 9] 1 3
        ⟨{3}, ∅, 0, AppendState.COMPLETED⟩).bytes = 1
    ∧ (appendValue (TypedValue.uint8 7) [9, 9, 9] 1 3
        ⟨{3}, ∅, 0, AppendState.COMPLETED⟩).ctx.propertyCount = 0 + 1 := by
  have h := claim_C1 (TypedValue.uint8 7) [9, 9, 9] 1 3
    ⟨{3}, ∅, 0, AppendState.COMPLETED⟩ (by decide) (by decide)
  exact ⟨h.1, h.2.2.2.2.2.2.2.2.1⟩

/-- C2: for every typed appender, a valid value that does not fit writes
nothing, sets `appendState = PARTIAL`, leaves the other context fields
unchanged, and returns 0; moreover every appender only ever writes inside
the buffer, and (from a position inside the buffer) the returned byte count
plus the pre-call position never exceeds the buffer length. -/
theorem claim_C2 (v : TypedValue) (data : List Nat) (pos flag : Nat)
    (ctx : OctreePacketContext) (hv : validValue v) :
    (¬pos + numBytesValue v ≤ data.length →
      appendValue v data pos flag ctx =
        { bytes := 0, data := data,
          ctx := { ctx with appendState := AppendState.PARTIAL }, logged := false })
    ∧ (∃ bs, (appendValue v data pos flag ctx).data = writeBytes data pos bs
        ∧ (bs.length = 0 ∨ pos + bs.length ≤ data.length))
    ∧ ((appendValue v data pos flag ctx).data).length = data.length
    ∧ ((appendValue v data pos flag ctx).bytes = 0
        ∨ pos + (appendValue v data pos flag ctx).bytes ≤ data.length)
    ∧ (pos ≤ data.length →
        pos + (appendValue v data pos flag ctx).bytes ≤ data.length) := by
  by_cases hfit : pos + numBytesValue v ≤ data.length
  · rw [appendValue_success v data pos flag ctx hv hfit]
    refine ⟨fun hc => absurd hfit hc, ⟨encodeValue v, rfl, Or.inr ?_⟩,
      writeBytes_length _ _ _, Or.inr hfit, fun _ => hfit⟩
    rw [encodeValue_length]
    exact hfit
  · rw [appendValue_didNotFit v data pos flag ctx hv hfit]
    exact ⟨fun _ => rfl, ⟨[], rfl, Or.inl rfl⟩, rfl, Or.inl rfl,
      fun h => by simpa using h⟩

/-- C2 witness: a vec3 on a buffer two bytes short. -/
theorem claim_C2_witness :
    appendValue (TypedValue.vec3 ⟨JSNum.fin 1, JSNum.fin 2, JSNum.fin 3⟩)
        (List.replicate 10 9) 0 3 ⟨{3}, ∅, 0, AppendState.COMPLETED⟩ =
      { bytes := 0, data := List.replicate 10 9,
        ctx := ⟨{3}, ∅, 0, AppendState.PARTIAL⟩, logged := false } := by
  have h := claim_C2 (TypedValue.vec3 ⟨JSNum.fin 1, JSNum.fin 2, JSNum.fin 3⟩)
    (List.replicate 10 9) 0 3 ⟨{3}, ∅, 0, AppendState.COMPLETED⟩
    (by norm_num [validValue, float32InRange, jsLe, MAX_FLOAT32])
  exact h.1 (by decide)

/-- C4: for every typed appender, a value failing the validity check logs an
error, returns 0, and mutates neither the buffer nor the packet context; in
particular an array of more than 65535 elements is invalid for the
boolean-array, quat-array, UUID-array and vec3-array appenders. -/
theorem claim_C4 :
    (∀ (v : TypedValue) (data : List Nat) (pos flag : Nat)
        (ctx : OctreePacketContext), ¬validValue v →
      appendValue v data pos flag ctx =
        { bytes := 0, data := data, ctx := ctx, logged := true })
    ∧ (∀ bs : List Bool, 0xffff < bs.length → ¬validValue (TypedValue.booleanArray bs))
    ∧ (∀ qs : List Quat, 0xffff < qs.length → ¬validValue (TypedValue.quatArray qs))
    ∧ (∀ us : List Uuid, 0xffff < us.length → ¬validValue (TypedValue.uuidArray us))
    ∧ (∀ vs : List Vec3, 0xffff < vs.length → ¬validValue (TypedValue.vec3Array vs)) := by
  refine ⟨appendValue_invalid, ?_, ?_, ?_, ?_⟩
  · intro bs h
    simp only [validValue]
    omega
  · intro qs h
    simp only [validValue]
    omega
  · intro us h
    simp only [validValue]
    omega
  · intro vs h
    simp only [validValue, not_and]
    intro hlen
    omega

/-- C4 witness: an out-of-range uint8 and an oversized boolean array. -/
theorem claim_C4_witness :
    appendValue (TypedValue.uint8 256) [9] 0 3 ⟨{3}, ∅, 0, AppendState.COMPLETED⟩ =
      { bytes := 0, data := [9], ctx := ⟨{3}, ∅, 0, AppendState.COMPLETED⟩,
        logged := true }
    ∧ ¬validValue (TypedValue.booleanArray (List.replicate 65536 true)) :=
  ⟨claim_C4.1 (TypedValue.uint8 256) [9] 0 3 ⟨{3}, ∅, 0, AppendState.COMPLETED⟩
      (by decide),
    claim_C4.2.1 (List.replicate 65536 true)
      (by rw [List.length_replicate]; decide)⟩

/-- C6: disjointness of `propertiesToWrite` and `propertiesWritten` is an
invariant of every typed appender, whichever branch is taken. -/
theorem claim_C6 (v : TypedValue) (data : List Nat) (pos flag : Nat)
    (ctx : OctreePacketContext)
    (hdis : Disjoint ctx.propertiesToWrite ctx.propertiesWritten) :
    Disjoint (appendValue v data pos flag ctx).ctx.propertiesToWrite
      (appendValue v data pos flag ctx).ctx.propertiesWritten := by
  by_cases hv : validValue v
  · by_cases hfit : pos + numBytesValue v ≤ data.length
    · rw [appendValue_success v data pos flag ctx hv hfit]
      simp only [commitProperty, setHasProperty, if_true, if_false,
        Bool.false_eq_true]
      rw [Finset.disjoint_insert_right]
      exact ⟨Finset.not_mem_erase flag ctx.propertiesToWrite,
        Finset.disjoint_of_subset_left (Finset.erase_subset _ _) hdis⟩
    · rw [appendValue_didNotFit v data pos flag ctx hv hfit]
      exact hdis
  · rw [appendValue_invalid v data pos flag ctx hv]
    exact hdis

/-- C6 witness: disjointness preserved on a concrete boolean append. -/
theorem claim_C6_witness :
    Disjoint (appendValue (TypedValue.boolean true) [9] 0 1
        ⟨{1}, {2}, 0, AppendState.COMPLETED⟩).ctx.propertiesToWrite
      (appendValue (TypedValue.boolean true) [9] 0 1
        ⟨{1}, {2}, 0, AppendState.COMPLETED⟩).ctx.propertiesWritten :=
  claim_C6 (TypedValue.boolean true) [9] 0 1
    ⟨{1}, {2}, 0, AppendState.COMPLETED⟩ (by decide)

/-- C7: `appendFloat32Value` rejects NaN, the infinities, and every finite
value of magnitude above `MAX_FLOAT32` (0-byte write, error logged, nothing
mutated); every finite value of magnitude at most `MAX_FLOAT32` that fits is
written as 4 bytes with the usual context commit and return value 4. -/
theorem claim_C7 :
    (∀ (data : List Nat) (pos flag : Nat) (le : Bool) (ctx : OctreePacketContext),
      appendFloat32Value data pos flag JSNum.nan le ctx =
        { bytes := 0, data := data, ctx := ctx, logged := true })
    ∧ (∀ (data : List Nat) (pos flag : Nat) (le : Bool) (ctx : OctreePacketContext),
      appendFloat32Value data pos flag JSNum.posInf le ctx =
        { bytes := 0, data := data, ctx := ctx, logged := true })
    ∧ (∀ (data : List Nat) (pos flag : Nat) (le : Bool) (ctx : OctreePacketContext),
      appendFloat32Value data pos flag JSNum.negInf le ctx =
        { bytes := 0, data := data, ctx := ctx, logged := true })
    ∧ (∀ q : ℚ, MAX_FLOAT32 < |q| →
      ∀ (data : List Nat) (pos flag : Nat) (le : Bool) (ctx : OctreePacketContext),
      appendFloat32Value data pos flag (JSNum.fin q) le ctx =
        { bytes := 0, data := data, ctx := ctx, logged := true })
    ∧ (∀ q : ℚ, |q| ≤ MAX_FLOAT32 →
      ∀ (data : List Nat) (pos flag : Nat) (le : Bool) (ctx : OctreePacketContext),
      pos + 4 ≤ data.length →
      appendFloat32Value data pos flag (JSNum.fin q) le ctx =
        { bytes := 4, data := writeBytes data pos (float32Bytes le (JSNum.fin q)),
          ctx := commitProperty ctx flag, logged := false }) := by
  refine ⟨?_, ?_, ?_, ?_, ?_⟩
  · intro data pos flag le ctx
    exact appendValue_invalid (TypedValue.float32 JSNum.nan le) data pos flag ctx
      (by simp [validValue, float32InRange, jsLe])
  · intro data pos flag le ctx
    exact appendValue_invalid (TypedValue.float32 JSNum.posInf le) data pos flag ctx
      (by simp [validValue, float32InRange, jsLe])
  · intro data pos flag le ctx
    exact appendValue_invalid (TypedValue.float32 JSNum.negInf le) data pos flag ctx
      (by simp [validValue, float32InRange, jsLe])
  · intro q hq data pos flag le ctx
    refine appendValue_invalid (TypedValue.float32 (JSNum.fin q) le) data pos flag ctx ?_
    intro hc
    simp only [validValue, float32InRange, jsLe, decide_eq_true_eq] at hc
    exact absurd (abs_le.mpr hc) (not_le.mpr hq)
  · intro q hq data pos flag le ctx hfit
    refine appendValue_success (TypedValue.float32 (JSNum.fin q) le) data pos flag ctx
      ?_ hfit
    simp only [validValue, float32InRange, jsLe, decide_eq_true_eq]
    exact abs_le.mp hq

/-- C7 witness: a concrete in-range finite value written as 4 bytes. -/
theorem claim_C7_witness :
    appendFloat32Value [9, 9, 9, 9] 0 1 (JSNum.fin 0) true
        ⟨∅, ∅, 0, AppendState.COMPLETED⟩ =
      { bytes := 4, data := writeBytes [9, 9, 9, 9] 0 (float32Bytes true (JSNum.fin 0)),
        ctx := commitProperty ⟨∅, ∅, 0, AppendState.COMPLETED⟩ 1, logged := false } :=
  claim_C7.2.2.2.2 0 (by rw [abs_zero]; norm_num [MAX_FLOAT32])
    [9, 9, 9, 9] 0 1 true ⟨∅, ∅, 0, AppendState.COMPLETED⟩ (by decide)

/-! ## The UUID wire format (C8) -/

theorem leBytes_add (m n v : Nat) :
    leBytes (m + n) v = leBytes m v ++ leBytes n (v / 256 ^ m) := by
  induction m generalizing v with
  | zero => simp [leBytes]
  | succ m ih =>
    rw [Nat.succ_add]
    show v % 256 :: leBytes (m + n) (v / 256)
        = (v % 256 :: leBytes m (v / 256)) ++ leBytes n (v / 256 ^ (m + 1))
    rw [ih, List.cons_append]
    have hdd : v / 256 / 256 ^ m = v / 256 ^ (m + 1) := by
      rw [Nat.div_div_eq_div_mul]
      congr 1
      ring
    rw [hdd]

/-- On a value below 2^128, the big-endian `setBigUint128` byte block is the
16 bytes of the value in big-endian order. -/
theorem bigUint128Bytes_be (v : Nat) (hv : v < 2 ^ 128) :
    bigUint128Bytes false v = beBytes 16 v := by
  have hs : ¬v > MAX_U128_VALUE := by
    unfold MAX_U128_VALUE
    omega
  have hdiv : v / 2 ^ 64 < 2 ^ 64 := by
    refine Nat.div_lt_of_lt_mul ?_
    calc v < 2 ^ 128 := hv
    _ = 2 ^ 64 * 2 ^ 64 := by norm_num
  have h2 : (256 : Nat) ^ 8 = 2 ^ 64 := by norm_num
  unfold bigUint128Bytes
  simp only [if_neg hs, Bool.false_eq_true, if_false, uintBytes]
  rw [Nat.mod_eq_of_lt hdiv]
  unfold beBytes
  rw [show (16 : Nat) = 8 + 8 from rfl, leBytes_add, List.reverse_append, h2,
    ← leBytes_mod 8 v, h2]

/-- C8: `appendUuidValue` encodes a null UUID as exactly the two bytes of a
zero uint16 length field (returning 2) and a non-null UUID as exactly a
uint16 length field of 16 followed by the 16 UUID bytes in big-endian order
(returning 18), whenever those bytes fit. -/
theorem claim_C8 (data : List Nat) (pos flag : Nat) (ctx : OctreePacketContext)
    (u : Uuid) :
    (u.isNull = true → pos + 2 ≤ data.length →
      appendUuidValue data pos flag u ctx =
        { bytes := 2, data := writeBytes data pos [0, 0],
          ctx := commitProperty ctx flag, logged := false })
    ∧ (u.isNull = false → u.value < 2 ^ 128 → pos + 18 ≤ data.length →
      appendUuidValue data pos flag u ctx =
        { bytes := 18, data := writeBytes data pos ([16, 0] ++ beBytes 16 u.value),
          ctx := commitProperty ctx flag, logged := false }) := by
  constructor
  · intro hn hfit
    unfold appendUuidValue
    rw [if_pos hn, if_pos hfit]
    have hz : uintBytes 2 true (0 % 2 ^ 16) = [0, 0] := by decide
    rw [hz]
  · intro hn hv hfit
    unfold appendUuidValue
    simp only [hn, Bool.false_eq_true, if_false]
    rw [if_pos hfit]
    have h16 : uintBytes 2 true (16 % 2 ^ 16) = [16, 0] := by decide
    rw [h16, bigUint128Bytes_be u.value hv]

/-- C8 witness: a concrete non-null UUID encoded as 18 bytes. -/
theorem claim_C8_witness :
    appendUuidValue (List.replicate 18 7) 0 5 ⟨3⟩ ⟨∅, ∅, 0, AppendState.COMPLETED⟩ =
      { bytes := 18,
        data := writeBytes (List.replicate 18 7) 0 ([16, 0] ++ beBytes 16 3),
        ctx := commitProperty ⟨∅, ∅, 0, AppendState.COMPLETED⟩ 5, logged := false } :=
  (claim_C8 (List.replicate 18 7) 0 5 ⟨∅, ∅, 0, AppendState.COMPLETED⟩ ⟨3⟩).2
    (by decide) (by decide) (by decide)

/-- C9 counterexample: `appendColorValue` does not treat an out-of-range
component as invalid. With red = 256 on a 3-byte buffer it returns 3 (not 0),
logs nothing, writes 256 wrapped to 0, and commits the context. -/
theorem claim_C9_counterexample :
    (appendColorValue [7, 7, 7] 0 5 ⟨256, 0, 0⟩
      ⟨∅, ∅, 0, AppendState.COMPLETED⟩).bytes = 3
    ∧ (appendColorValue [7, 7, 7] 0 5 ⟨256, 0, 0⟩
      ⟨∅, ∅, 0, AppendState.COMPLETED⟩).logged = false
    ∧ (appendColorValue [7, 7, 7] 0 5 ⟨256, 0, 0⟩
      ⟨∅, ∅, 0, AppendState.COMPLETED⟩).data = [0, 0, 0]
    ∧ (appendColorValue [7, 7, 7] 0 5 ⟨256, 0, 0⟩
      ⟨∅, ∅, 0, AppendState.COMPLETED⟩).ctx.propertyCount = 1 := by
  refine ⟨rfl, rfl, by decide, rfl⟩

/-- C9 (amended): `appendColorValue` validates only that the components are
numbers; any color - out-of-range components included - that fits is written
as 3 bytes, each component wrapped modulo 256, with the usual context commit
and return value 3. -/
theorem claim_C9_amended (data : List Nat) (pos flag : Nat)
    (ctx : OctreePacketContext) (value : JSColor) (hfit : pos + 3 ≤ data.length) :
    appendColorValue data pos flag value ctx =
      { bytes := 3,
        data := writeBytes data pos
          [wrapInt 256 value.red, wrapInt 256 value.green, wrapInt 256 value.blue],
        ctx := commitProperty ctx flag, logged := false } := by
  unfold appendColorValue
  rw [if_pos hfit]

/-- C9 witness: the amended behavior on the counterexample's input. -/
theorem claim_C9_witness :
    appendColorValue [7, 7, 7] 0 5 ⟨256, 0, 0⟩ ⟨∅, ∅, 0, AppendState.COMPLETED⟩ =
      { bytes := 3,
        data := writeBytes [7, 7, 7] 0 [wrapInt 256 256, wrapInt 256 0, wrapInt 256 0],
        ctx := commitProperty ⟨∅, ∅, 0, AppendState.COMPLETED⟩ 5, logged := false } :=
  claim_C9_amended [7, 7, 7] 0 5 ⟨∅, ∅, 0, AppendState.COMPLETED⟩ ⟨256, 0, 0⟩
    (by decide)

/-! ## `RingGizmoPropertyGroup.readEntitySubclassDataFromBuffer` (C10)

Modelled from the source file `RingGizmoPropertyGroup.ts`. The numeric codes
of `EntityPropertyList` live in `EntityPropertyFlags.ts`, which is not among
the sources; only the identity of each ring-gizmo code matters below, so the
codes are represented by distinct placeholder values. -/

def PROP_START_ANGLE : Nat := 0

def PROP_END_ANGLE : Nat := 1

def PROP_INNER_RADIUS : Nat := 2

def PROP_INNER_START_COLOR : Nat := 3

def PROP_INNER_END_COLOR : Nat := 4

def PROP_OUTER_START_COLOR : Nat := 5

def PROP_OUTER_END_COLOR : Nat := 6

def PROP_INNER_START_ALPHA : Nat := 7

def PROP_INNER_END_ALPHA : Nat := 8

def PROP_OUTER_START_ALPHA : Nat := 9

def PROP_OUTER_END_ALPHA : Nat := 10

def PROP_HAS_TICK_MARKS : Nat := 11

def PROP_MAJOR_TICK_MARKS_ANGLE : Nat := 12

def PROP_MINOR_TICK_MARKS_ANGLE : Nat := 13

def PROP_MAJOR_TICK_MARKS_LENGTH : Nat := 14

def PROP_MINOR_TICK_MARKS_LENGTH : Nat := 15

def PROP_MAJOR_TICK_MARKS_COLOR : Nat := 16

def PROP_MINOR_TICK_MARKS_COLOR : Nat := 17

/-- The return value of the ring-gizmo reader: the byte count and the (still
empty, `Record<string, never>`) properties record. -/
structure RingGizmoPropertyGroupSubclassData where
  bytesRead : Nat
  properties : Unit
deriving DecidableEq

/-- `RingGizmoPropertyGroup.readEntitySubclassDataFromBuffer`: every ring
property present in the flags skips its fixed byte size (reading of the
actual values is still `WEBRTC TODO` in the source, so the `DataView` is
never touched and the properties record stays empty). -/
def RingGizmoPropertyGroup.readEntitySubclassDataFromBuffer (data : List Nat)
    (position : Nat) (propertyFlags : EntityPropertyFlags) :
    RingGizmoPropertyGroupSubclassData :=
  let dataPosition := position
  let dataPosition := if getHasProperty propertyFlags PROP_START_ANGLE then
    dataPosition + 4 else dataPosition
  let dataPosition := if getHasProperty propertyFlags PROP_END_ANGLE then
    dataPosition + 4 else dataPosition
  let dataPosition := if getHasProperty propertyFlags PROP_INNER_RADIUS then
    dataPosition + 4 else dataPosition
  let dataPosition := if getHasProperty propertyFlags PROP_INNER_START_COLOR then
    dataPosition + 3 else dataPosition
  let dataPosition := if getHasProperty propertyFlags PROP_INNER_END_COLOR then
    dataPosition + 3 else dataPosition
  let dataPosition := if getHasProperty propertyFlags PROP_OUTER_START_COLOR then
    dataPosition + 3 else dataPosition
  let dataPosition := if getHasProperty propertyFlags PROP_OUTER_END_COLOR then
    dataPosition + 3 else dataPosition
  let dataPosition := if getHasProperty propertyFlags PROP_INNER_START_ALPHA then
    dataPosition + 4 else dataPosition
  let dataPosition := if getHasProperty propertyFlags PROP_INNER_END_ALPHA then
    dataPosition + 4 else dataPosition
  let dataPosition := if getHasProperty propertyFlags PROP_OUTER_START_ALPHA then
    dataPosition + 4 else dataPosition
  let dataPosition := if getHasProperty propertyFlags PROP_OUTER_END_ALPHA then
    dataPosition + 4 else dataPosition
  let dataPosition := if getHasProperty propertyFlags PROP_HAS_TICK_MARKS then
    dataPosition + 1 else dataPosition
  let dataPosition := if getHasProperty propertyFlags PROP_MAJOR_TICK_MARKS_ANGLE then
    dataPosition + 4 else dataPosition
  let dataPosition := if getHasProperty propertyFlags PROP_MINOR_TICK_MARKS_ANGLE then
    dataPosition + 4 else dataPosition
  let dataPosition := if getHasProperty propertyFlags PROP_MAJOR_TICK_MARKS_LENGTH then
    dataPosition + 4 else dataPosition
  let dataPosition := if getHasProperty propertyFlags PROP_MINOR_TICK_MARKS_LENGTH then
    dataPosition + 4 else dataPosition
  let dataPosition := if getHasProperty propertyFlags PROP_MAJOR_TICK_MARKS_COLOR then
    dataPosition + 3 else dataPosition
  let dataPosition := if getHasProperty propertyFlags PROP_MINOR_TICK_MARKS_COLOR then
    dataPosition + 3 else dataPosition
  { bytesRead := dataPosition - position
    properties := () }

theorem ite_accum (c : Prop) [Decidable c] (x k : Nat) :
    (if c then x + k else x) = x + (if c then k else 0) := by
  split <;> simp

/-- The byte count the ring-gizmo reader skips over, as a sum of per-flag
sizes. -/
def ringGizmoSizeSum (propertyFlags : EntityPropertyFlags) : Nat :=
  (if getHasProperty propertyFlags PROP_START_ANGLE then 4 else 0)
  + (if getHasProperty propertyFlags PROP_END_ANGLE then 4 else 0)
  + (if getHasProperty propertyFlags PROP_INNER_RADIUS then 4 else 0)
  + (if getHasProperty propertyFlags PROP_INNER_START_COLOR then 3 else 0)
  + (if getHasProperty propertyFlags PROP_INNER_END_COLOR then 3 else 0)
  + (if getHasProperty propertyFlags PROP_OUTER_START_COLOR then 3 else 0)
  + (if getHasProperty propertyFlags PROP_OUTER_END_COLOR then 3 else 0)
  + (if getHasProperty propertyFlags PROP_INNER_START_ALPHA then 4 else 0)
  + (if getHasProperty propertyFlags PROP_INNER_END_ALPHA then 4 else 0)
  + (if getHasProperty propertyFlags PROP_OUTER_START_ALPHA then 4 else 0)
  + (if getHasProperty propertyFlags PROP_OUTER_END_ALPHA then 4 else 0)
  + (if getHasProperty propertyFlags PROP_HAS_TICK_MARKS then 1 else 0)
  + (if getHasProperty propertyFlags PROP_MAJOR_TICK_MARKS_ANGLE then 4 else 0)
  + (if getHasProperty propertyFlags PROP_MINOR_TICK_MARKS_ANGLE then 4 else 0)
  + (if getHasProperty propertyFlags PROP_MAJOR_TICK_MARKS_LENGTH then 4 else 0)
  + (if getHasProperty propertyFlags PROP_MINOR_TICK_MARKS_LENGTH then 4 else 0)
  + (if getHasProperty propertyFlags PROP_MAJOR_TICK_MARKS_COLOR then 3 else 0)
  + (if getHasProperty propertyFlags PROP_MINOR_TICK_MARKS_COLOR then 3 else 0)

theorem ringGizmo_read_eq (data : List Nat) (position : Nat)
    (propertyFlags : EntityPropertyFlags) :
    RingGizmoPropertyGroup.readEntitySubclassDataFromBuffer data position
        propertyFlags =
      { bytesRead := ringGizmoSizeSum propertyFlags, properties := () } := by
  simp only [RingGizmoPropertyGroup.readEntitySubclassDataFromBuffer,
    ringGizmoSizeSum, RingGizmoPropertyGroupSubclassData.mk.injEq, and_true]
  simp only [ite_accum]
  simp only [Nat.add_assoc]
  rw [Nat.add_sub_cancel_left]

/-- C10: for every DataView, start position and flag set, the ring-gizmo
reader returns an empty properties record and a `bytesRead` equal to the sum
of the fixed sizes of exactly the ring flags present in the set, and its
result does not depend on the DataView or the position (it never reads from
or writes to the buffer - the model of this pure reader cannot write, and
its independence from `data` shows it reads nothing). -/
theorem claim_C10 (data data' : List Nat) (position position' : Nat)
    (propertyFlags : EntityPropertyFlags) :
    (RingGizmoPropertyGroup.readEntitySubclassDataFromBuffer data position
        propertyFlags).bytesRead = ringGizmoSizeSum propertyFlags
    ∧ (RingGizmoPropertyGroup.readEntitySubclassDataFromBuffer data position
        propertyFlags).properties = ()
    ∧ RingGizmoPropertyGroup.readEntitySubclassDataFromBuffer data position
        propertyFlags
      = RingGizmoPropertyGroup.readEntitySubclassDataFromBuffer data' position'
        propertyFlags := by
  rw [ringGizmo_read_eq data position propertyFlags,
    ringGizmo_read_eq data' position' propertyFlags]
  exact ⟨rfl, rfl, rfl⟩

/-! ## The entity-edit encoder (C3) -/

/-- The slice of `MessageData` the encoder works on: the packet buffer and
the write position. -/
structure MessageData where
  buffer : List Nat
  dataPosition : Nat
deriving DecidableEq

/-- The outcome of one `encodeEntityEditPacket` call. -/
structure EncodeResult where
  appendState : AppendState
  messageData : MessageData
  didntFitProperties : EntityPropertyFlags
deriving DecidableEq

/-- The state threaded through the encoder's per-property loop. -/
structure PropLoopState where
  pos : Nat
  buf : List Nat
  written : Nat
  didntFit : EntityPropertyFlags
deriving DecidableEq

/-- The encoder's per-property loop: each requested property (its flag and
its serialized bytes, in request order) is written if it fits, otherwise
marked in `didntFit`, and the loop continues with the remaining (possibly
smaller) properties either way. -/
def appendProps : List (Nat × List Nat) → PropLoopState → PropLoopState
  | [], s => s
  | p :: rest, s =>
    if s.pos + p.2.length ≤ s.buf.length then
      appendProps rest
        { s with pos := s.pos + p.2.length
                 buf := writeBytes s.buf s.pos p.2
                 written := s.written + 1 }
    else
      appendProps rest { s with didntFit := insert p.1 s.didntFit }

/-- Modelled from the spec: `EntityItemProperties.encodeEntityEditPacket`
(file `EntityItemProperties.ts`) is not among the sources - only its unit
tests are. Per spec section 4.I the encoder checkpoints the buffer position,
writes the packet header, entity UUID and requested-property flag block
(`header` here stands for those already-serialized bytes), then tries each
requested property in order - `props`, each as its flag and serialized
bytes - marking any that does not fit in `didntFitProperties` and continuing
with the rest. It returns COMPLETED when every requested property fit,
NONE when none did (abandoning the packet: the buffer position is rolled
back to the checkpoint, as the unit test observes with
`messageData.dataPosition == 0`), and PARTIAL otherwise. -/
def encodeEntityEditPacket (header : List Nat) (props : List (Nat × List Nat))
    (messageData : MessageData) : EncodeResult :=
  let checkpoint := messageData.dataPosition
  if checkpoint + header.length ≤ messageData.buffer.length then
    let s := appendProps props
      { pos := checkpoint + header.length
        buf := writeBytes messageData.buffer checkpoint header
        written := 0
        didntFit := ∅ }
    if s.didntFit = ∅ then
      { appendState := AppendState.COMPLETED
        messageData := { buffer := s.buf, dataPosition := s.pos }
        didntFitProperties := s.didntFit }
    else if s.written = 0 then
      { appendState := AppendState.NONE
        messageData := { buffer := messageData.buffer, dataPosition := checkpoint }
        didntFitProperties := s.didntFit }
    else
      { appendState := AppendState.PARTIAL
        messageData := { buffer := s.buf, dataPosition := s.pos }
        didntFitProperties := s.didntFit }
  else
    { appendState := AppendState.NONE
      messageData := messageData
      didntFitProperties := props.foldl (fun d p => insert p.1 d) ∅ }

theorem appendProps_nothing_fits (props : List (Nat × List Nat))
    (s : PropLoopState) (h : ∀ p ∈ props, ¬s.pos + p.2.length ≤ s.buf.length) :
    appendProps props s =
      { s with didntFit := props.foldl (fun d p => insert p.1 d) s.didntFit } := by
  induction props generalizing s with
  | nil => simp [appendProps]
  | cons p rest ih =>
    have hp : ¬s.pos + p.2.length ≤ s.buf.length := h p (List.mem_cons_self p rest)
    simp only [appendProps, if_neg hp, List.foldl_cons]
    exact ih { s with didntFit := insert p.1 s.didntFit }
      fun q hq => h q (List.mem_cons_of_mem p hq)

theorem mem_foldl_insert (props : List (Nat × List Nat)) (d : EntityPropertyFlags)
    (x : Nat) (hx : x ∈ d) :
    x ∈ props.foldl (fun acc p => insert p.1 acc) d := by
  induction props generalizing d with
  | nil => exact hx
  | cons p rest ih =>
    simp only [List.foldl_cons]
    exact ih (insert p.1 d) (Finset.mem_insert_of_mem hx)

theorem fst_mem_foldl_insert (props : List (Nat × List Nat))
    (d : EntityPropertyFlags) (p : Nat × List Nat) (hp : p ∈ props) :
    p.1 ∈ props.foldl (fun acc q => insert q.1 acc) d := by
  induction props generalizing d with
  | nil => cases hp
  | cons q rest ih =>
    simp only [List.foldl_cons]
    rcases List.mem_cons.mp hp with hpq | hpr
    · subst hpq
      exact mem_foldl_insert rest _ _ (Finset.mem_insert_self p.1 d)
    · exact ih (insert q.1 d) hpr

/-- C3: when no requested property fits, `encodeEntityEditPacket` returns
`AppendState.NONE`, marks every requested property in `didntFitProperties`,
and leaves `messageData.dataPosition` at the pre-write checkpoint. -/
theorem claim_C3 (header : List Nat) (props : List (Nat × List Nat))
    (messageData : MessageData) (hne : props ≠ [])
    (hheader : messageData.dataPosition + header.length
      ≤ messageData.buffer.length)
    (hnofit : ∀ p ∈ props, ¬messageData.dataPosition + header.length + p.2.length
      ≤ messageData.buffer.length) :
    (encodeEntityEditPacket header props messageData).appendState = AppendState.NONE
    ∧ (∀ p ∈ props,
        p.1 ∈ (encodeEntityEditPacket header props messageData).didntFitProperties)
    ∧ (encodeEntityEditPacket header props messageData).messageData.dataPosition
      = messageData.dataPosition := by
  have hloop := appendProps_nothing_fits props
    { pos := messageData.dataPosition + header.length
      buf := writeBytes messageData.buffer messageData.dataPosition header
      written := 0
      didntFit := ∅ }
    (by
      intro p hp
      simp only [writeBytes_length]
      exact hnofit p hp)
  have hmem : ∀ p ∈ props,
      p.1 ∈ props.foldl (fun acc q => insert q.1 acc) (∅ : EntityPropertyFlags) :=
    fun p hp => fst_mem_foldl_insert props ∅ p hp
  have hnonempty : ¬props.foldl (fun acc q => insert q.1 acc)
      (∅ : EntityPropertyFlags) = ∅ := by
    rcases props with _ | ⟨p, rest⟩
    · exact absurd rfl hne
    · intro hc
      have := hmem p (List.mem_cons_self p rest)
      rw [hc] at this
      exact absurd this (Finset.not_mem_empty p.1)
  unfold encodeEntityEditPacket
  rw [if_pos hheader, hloop]
  simp only [hnonempty, if_false, if_pos rfl]
  exact ⟨rfl, hmem, rfl⟩

/-- C3 witness: a one-property request on a buffer with room for the header
but not the property. -/
theorem claim_C3_witness :
    (encodeEntityEditPacket [1, 2] [(5, [9, 9, 9])] ⟨[0, 0, 0], 0⟩).appendState
      = AppendState.NONE
    ∧ 5 ∈ (encodeEntityEditPacket [1, 2] [(5, [9, 9, 9])]
        ⟨[0, 0, 0], 0⟩).didntFitProperties
    ∧ (encodeEntityEditPacket [1, 2] [(5, [9, 9, 9])]
        ⟨[0, 0, 0], 0⟩).messageData.dataPosition = 0 := by
  have h := claim_C3 [1, 2] [(5, [9, 9, 9])] ⟨[0, 0, 0], 0⟩ (by decide) (by decide)
    (by decide)
  exact ⟨h.1, h.2.1 (5, [9, 9, 9]) (List.mem_singleton.mpr rfl), h.2.2⟩

end VircadiaSdk
